import Mathlib

/-!
Verification of `great_expectations/render/renderer/content_block/
validation_results_table_content_block.py`
(`ValidationResultsTableContentBlockRenderer`).

Python values flowing through the renderer (metadata mappings, rendered
fragments, cell contents) are embedded as the JSON-like type `PyVal`;
Python dicts become association lists with Python dict semantics
(first-occurrence lookup, in-place update of an existing key, append of a
new key); Python exceptions become the `PyExc` record (exception type
name, message, traceback) and fallible code returns `Except PyExc`.
The renderer registry (`get_renderer_impl`) and the two inherited default
renderers are external collaborators and are passed in as parameters
(`Registry`, `Env`).
-/

/-- JSON-like Python value as it appears in outcome metadata and rendered
cells.  Rendered fragment objects (string templates, tables, …) are opaque
data and are representable by any constructor. -/
inductive PyVal where
  | null
  | bool (b : Bool)
  | int (n : Int)
  | str (s : String)
  | list (xs : List PyVal)
  | dict (kvs : List (String × PyVal))

/-- Python `d[k]` read on a dict: value at the first occurrence of `k`
(a real Python dict has no duplicate keys, so this is the unique binding). -/
def dictGet : List (String × PyVal) → String → Option PyVal
  | [], _ => none
  | (k', v) :: m, k => if k' = k then some v else dictGet m k

/-- Python `k in d` on a dict. -/
def containsKey (m : List (String × PyVal)) (k : String) : Bool :=
  (dictGet m k).isSome

/-- Python `d[k] = v` on a dict: overwrite in place when the key exists,
append a fresh binding otherwise. -/
def dictSet : List (String × PyVal) → String → PyVal → List (String × PyVal)
  | [], k, v => [(k, v)]
  | (k', v') :: m, k, v =>
    if k' = k then (k, v) :: m else (k', v') :: dictSet m k v

/-- Python truthiness of an embedded value (`if x:`). -/
def pyTruthy : PyVal → Bool
  | .null => false
  | .bool b => b
  | .int n => n != 0
  | .str s => !s.isEmpty
  | .list xs => !xs.isEmpty
  | .dict kvs => !kvs.isEmpty

/-- A raised Python exception: its class name (`type(e).__name__`), its
message (`str(e)`) and its formatted traceback (`traceback.format_exc()`). -/
structure PyExc where
  ty : String
  msg : String
  tb : String
deriving DecidableEq

/-- `expectation_config` of a validation result: the expectation type used
for registry dispatch, and the (optional, mutable) `meta` mapping. -/
structure ExpectationConfig where
  expectation_type : String
  meta : Option (List (String × PyVal))

/-- One validation outcome (`ExpectationValidationResult`): its
configuration and its pass/fail `success` flag. -/
structure ValidationResult where
  expectation_config : ExpectationConfig
  success : Bool

/-- The two default renderers the class inherits (`_missing_content_block_fn`
and `_diagnostic_status_icon_renderer` live on ancestor classes, outside this
module); they are external callables, possibly raising. -/
structure Env where
  missing_content_block_fn :
    ExpectationConfig → List (String × PyVal) → Except PyExc (List PyVal)
  diagnostic_status_icon_renderer :
    ValidationResult → Except PyExc PyVal

/-- Resolved registry entries for one expectation type: the result of
`get_renderer_impl(object_name=expectation_type, renderer_type=...)` for
each of the five renderer categories used by this module.  `none` models a
registry miss; a present renderer is an external callable, possibly
raising. -/
structure Registry where
  prescriptive :
    Option (ExpectationConfig → List (String × PyVal) → Except PyExc (List PyVal))
  status_icon : Option (ValidationResult → Except PyExc PyVal)
  unexpected_statement : Option (ValidationResult → Except PyExc (List PyVal))
  unexpected_table : Option (ValidationResult → Except PyExc PyVal)
  observed_value : Option (ValidationResult → Except PyExc PyVal)

/-- Lexicographic (code-point) comparison of char lists, the order Python
uses on strings. -/
def charListLe : List Char → List Char → Bool
  | [], _ => true
  | _ :: _, [] => false
  | a :: as, b :: bs => if a = b then charListLe as bs else decide (a < b)

/-- Python `<=` on strings: lexicographic by code point. -/
def strLe (a b : String) : Bool := charListLe a.toList b.toList

/-- Python `sorted` on a list of strings. -/
def pySorted (l : List String) : List String :=
  List.insertionSort (fun a b => strLe a b = true) l

/-- Splitter state machine for `str.split(sep)` with a one-char separator. -/
def splitDotAux : List Char → List Char → List String
  | [], cur => [String.mk cur.reverse]
  | c :: rest, cur =>
    if c = '.' then String.mk cur.reverse :: splitDotAux rest []
    else splitDotAux rest (c :: cur)

/-- Python `value.split(".")` (line 225). -/
def splitDot (s : String) : List String := splitDotAux s.toList []

/-- Effectful map over a list in the `Except` monad, failing at the first
error (the order in which a Python `for` loop runs fallible bodies). -/
def mapMList {α β : Type} (f : α → Except PyExc β) : List α → Except PyExc (List β)
  | [] => .ok []
  | a :: as => do
    let b ← f a
    let bs ← mapMList f as
    pure (b :: bs)

/-- `_custom_property_columns_key = "properties_to_render"` (line 43). -/
def customPropertyColumnsKey : String := "properties_to_render"

/-- The keys contributed by one result to `_get_custom_columns`
(lines 48-57): the keys under the reserved meta key when present;
iterating a non-dict value there raises `TypeError`. -/
def keysOfResult (r : ValidationResult) : Except PyExc (List String) :=
  match r.expectation_config.meta with
  | none => .ok []
  | some m =>
    match dictGet m customPropertyColumnsKey with
    | none => .ok []
    | some (.dict sub) => .ok (sub.map Prod.fst)
    | some _ => .error (PyExc.mk "TypeError" "object is not iterable" "")

/-- The dedup-as-you-go accumulation of lines 53-57:
`if key not in custom_columns: custom_columns.append(key)`. -/
def addNew : List String → List String → List String
  | acc, [] => acc
  | acc, k :: ks => addNew (if k ∈ acc then acc else acc ++ [k]) ks

/-- The loop of `_get_custom_columns` over all results (lines 47-57). -/
def collectColumns : List ValidationResult → List String → Except PyExc (List String)
  | [], acc => .ok acc
  | r :: rs, acc => do
    let ks ← keysOfResult r
    collectColumns rs (addNew acc ks)

/-- `ValidationResultsTableContentBlockRenderer._get_custom_columns`
(lines 45-58): collect the distinct custom column names, in first-seen
order, then `sorted(...)` lexicographically. -/
def getCustomColumns (rs : List ValidationResult) : Except PyExc (List String) :=
  (collectColumns rs []).map pySorted

/-- Lines 64-67 of `render`: ensure `meta` exists and holds the reserved
custom-column key (with an empty dict as default). -/
def ensureMeta (r : ValidationResult) : List (String × PyVal) :=
  match r.expectation_config.meta with
  | none => [(customPropertyColumnsKey, PyVal.dict [])]
  | some m =>
    if containsKey m customPropertyColumnsKey then m
    else m ++ [(customPropertyColumnsKey, PyVal.dict [])]

/-- Lines 68-77 of `render`: for every discovered column not already a key
of the sub-mapping, insert it with value `None`. -/
def addCols : List (String × PyVal) → List String → List (String × PyVal)
  | sub, [] => sub
  | sub, c :: cs =>
    addCols (if containsKey sub c then sub else sub ++ [(c, PyVal.null)]) cs

/-- The effect of lines 68-77 on an ensured meta dict: rewrite the reserved
key's sub-dict with the missing discovered columns inserted as `None`.  A
non-dict value under the reserved key makes the membership test / item
assignment raise `TypeError` (only reachable when there is at least one
discovered column, since otherwise the loop body never runs). -/
def normalizedMeta (cols : List String) (m : List (String × PyVal)) :
    Except PyExc (List (String × PyVal)) :=
  if cols.isEmpty then .ok m
  else
    match dictGet m customPropertyColumnsKey with
    | some (.dict sub) =>
      .ok (dictSet m customPropertyColumnsKey (PyVal.dict (addCols sub cols)))
    | _ => .error (PyExc.mk "TypeError" "argument of type is not iterable" "")

/-- The per-result body of the normalization loop in `render` (lines 63-77).
The loop mutates `result.expectation_config.meta` in place; the embedding
returns the updated result. -/
def normalizeResult (cols : List String) (r : ValidationResult) :
    Except PyExc ValidationResult :=
  (normalizedMeta cols (ensureMeta r)).map
    (fun m' => { r with expectation_config :=
      { r.expectation_config with meta := some m' } })

/-- The whole normalization pass of `render` (lines 63-77) over the result
sequence. -/
def renderNormalize (cols : List String) (rs : List ValidationResult) :
    Except PyExc (List ValidationResult) :=
  mapMList (normalizeResult cols) rs

/-- The fixed prefix of the message logged when a diagnostic sub-renderer
raises (lines 148-152). -/
def dataDocsExceptionMessage : String :=
  "An unexpected Exception occurred during data docs rendering.  Because of this error, certain parts of data docs will not be rendered properly and/or may not appear altogether.  Please use the trace, included in this message, to diagnose and repair the underlying issue.  Detailed information follows:\n            "

/-- The full logged message for a caught diagnostic sub-renderer exception
(built at lines 164-168, 181-185, 198-202). -/
def excMessage (e : PyExc) : String :=
  dataDocsExceptionMessage ++ e.ty ++ ": \"" ++ e.msg ++ "\".  Traceback: \"" ++
    e.tb ++ "\"."

/-- Lines 125-128: `kwargs.get("evaluation_parameters", None)` is loaded
into the runtime configuration when it is not `None`. -/
def updatedRuntimeConfiguration (rc : List (String × PyVal)) (ep : Option PyVal) :
    List (String × PyVal) :=
  match ep with
  | some v =>
    match v with
    | .null => rc
    | _ => dictSet rc "evaluation_parameters" v
  | none => rc

/-- Lines 108-115 of `_get_content_block_fn`: resolve the prescriptive
renderer from the registry, falling back to the inherited
`_missing_content_block_fn` on a miss. -/
def getContentBlockFn (env : Env) (reg : Registry) :
    ExpectationConfig → List (String × PyVal) → Except PyExc (List PyVal) :=
  match reg.prescriptive with
  | some f => f
  | none => env.missing_content_block_fn

/-- Lines 135-143: the status cell, via the resolved status-icon renderer or
the inherited `_diagnostic_status_icon_renderer` on a registry miss.  Not
exception-wrapped: a raising renderer propagates. -/
def statusStep (env : Env) (reg : Registry) (result : ValidationResult) :
    Except PyExc (List PyVal) :=
  match reg.status_icon with
  | some f => do
    let v ← f result
    pure [v]
  | none => do
    let v ← env.diagnostic_status_icon_renderer result
    pure [v]

/-- Lines 144, 153-169: the unexpected-statement step.  Registry miss or a
caught exception leaves the default `[]`; a caught exception also emits one
error-level log entry. -/
def statementStep (reg : Registry) (result : ValidationResult) :
    List PyVal × List String :=
  match reg.unexpected_statement with
  | some f =>
    match f result with
    | .ok v => (v, [])
    | .error e => ([], [excMessage e])
  | none => ([], [])

/-- Lines 145, 170-186: the unexpected-table step.  Registry miss or a
caught exception leaves the default `None`. -/
def tableStep (reg : Registry) (result : ValidationResult) :
    PyVal × List String :=
  match reg.unexpected_table with
  | some f =>
    match f result with
    | .ok v => (v, [])
    | .error e => (PyVal.null, [excMessage e])
  | none => (PyVal.null, [])

/-- Lines 146, 187-203: the observed-value step.  Registry miss yields
`["--"]`; a caught exception leaves the default `["--"]`. -/
def observedStep (reg : Registry) (result : ValidationResult) :
    List PyVal × List String :=
  match reg.observed_value with
  | some f =>
    match f result with
    | .ok v => ([v], [])
    | .error e => ([PyVal.str "--"], [excMessage e])
  | none => ([PyVal.str "--"], [])

/-- Lines 223-229: walk the dotted path as successive `obj[v]` lookups
starting from the full `expectation.meta` dict.  A missing key raises
`KeyError`; indexing a non-dict with a string key raises `TypeError`. -/
def resolveSegments : PyVal → List String → Except PyExc PyVal
  | obj, [] => .ok obj
  | obj, v :: rest =>
    match obj with
    | .dict kvs =>
      match dictGet kvs v with
      | some x => resolveSegments x rest
      | none => .error (PyExc.mk "KeyError" v "")
    | _ => .error (PyExc.mk "TypeError" "object is not subscriptable" "")

/-- Lines 221-231: the cell for one custom column, given the full meta dict
`m` and the stored dotted-path value.  `None` yields `["N/A"]`; a string is
split on `"."` and walked, with `except KeyError` recovering to `["N/A"]`
(any other exception propagates); a non-string, non-`None` value has no
`.split` and raises `AttributeError`. -/
def resolveOneColumn (m : List (String × PyVal)) (value : PyVal) :
    Except PyExc PyVal :=
  match value with
  | .null => .ok (PyVal.list [PyVal.str "N/A"])
  | .str s =>
    match resolveSegments (PyVal.dict m) (splitDot s) with
    | .ok obj => .ok (PyVal.list [obj])
    | .error e =>
      if e.ty = "KeyError" then .ok (PyVal.list [PyVal.str "N/A"])
      else .error e
  | _ => .error (PyExc.mk "AttributeError" "object has no attribute split" "")

/-- Lines 215-232: the custom-column cells of one row, one per key of the
reserved sub-mapping, taken in `sorted` key order. -/
def customPropertyValues (expectation : ExpectationConfig) :
    Except PyExc (List PyVal) :=
  match expectation.meta with
  | none => .ok []
  | some m =>
    match dictGet m customPropertyColumnsKey with
    | none => .ok []
    | some (.dict sub) =>
      mapMList
        (fun key =>
          match dictGet sub key with
          | some v => resolveOneColumn m v
          | none => .ok (PyVal.list [PyVal.str "N/A"]))
        (pySorted (sub.map Prod.fst))
    | some _ => .error (PyExc.mk "TypeError" "object is not iterable" "")

/-- `row_generator_fn` (lines 118-234): assemble the one-row table for one
outcome, returning the table together with the error-level log entries
emitted for caught diagnostic sub-renderer exceptions, or the uncaught
exception. -/
def rowGeneratorFn (env : Env) (reg : Registry) (result : ValidationResult)
    (runtime_configuration : List (String × PyVal))
    (evaluation_parameters : Option PyVal) :
    Except PyExc (List (List PyVal) × List String) := do
  let rc := updatedRuntimeConfiguration runtime_configuration evaluation_parameters
  let expectation := result.expectation_config
  let expectation_string_cell ← getContentBlockFn env reg expectation rc
  let status_cell ← statusStep env reg result
  let (unexpected_statement, log1) := statementStep reg result
  let (unexpected_table, log2) := tableStep reg result
  let (observed_value, log3) := observedStep reg result
  let cell1 :=
    if unexpected_statement.isEmpty then expectation_string_cell
    else expectation_string_cell ++ unexpected_statement
  let cell2 := if pyTruthy unexpected_table then cell1 ++ [unexpected_table] else cell1
  let row :=
    if cell2.length > 1 then status_cell ++ [PyVal.list cell2] ++ observed_value
    else status_cell ++ cell2 ++ observed_value
  let custom_property_values ← customPropertyValues expectation
  pure ([row ++ custom_property_values], log1 ++ log2 ++ log3)

/-- The abstract table under construction in `_process_content_block`:
header row, header row options and styling hints. -/
structure ContentBlock where
  header_row : List String
  header_row_options : List (String × PyVal)
  styling : Option (List (String × PyVal))

/-- The styling class appended when no outcome failed (lines 96-102). -/
def hideClassName : String := "hide-succeeded-validations-column-section-target-child"

/-- Lines 84-91: the fixed header and its options, extended with the
discovered custom columns when a render object is supplied. -/
def headerAdditions (render_object : Option (List ValidationResult)) :
    Except PyExc (List String × List (String × PyVal)) :=
  let hr := ["Status", "Expectation", "Observed Value"]
  let hro := [("Status", PyVal.dict [("sortable", PyVal.bool true)])]
  match render_object with
  | some ro => do
    let custom_columns ← getCustomColumns ro
    pure (hr ++ custom_columns,
      custom_columns.foldl
        (fun acc column =>
          dictSet acc column (PyVal.dict [("sortable", PyVal.bool true)])) hro)
  | none => pure (hr, hro)

/-- Lines 93-104: when `has_failed_evr is False`, append the hide-succeeded
class to the (deep-copied) styling's `classes` list, creating the entry when
it is absent or falsy; `.append` on a truthy non-list raises
`AttributeError`. -/
def stylingUpdate (has_failed_evr : Bool)
    (styling0 : Option (List (String × PyVal))) :
    Except PyExc (Option (List (String × PyVal))) :=
  if has_failed_evr = false then
    let s := styling0.getD []
    match dictGet s "classes" with
    | some v =>
      if pyTruthy v then
        match v with
        | .list xs =>
          .ok (some (dictSet s "classes" (PyVal.list (xs ++ [PyVal.str hideClassName]))))
        | _ => .error (PyExc.mk "AttributeError" "object has no attribute append" "")
      else .ok (some (dictSet s "classes" (PyVal.list [PyVal.str hideClassName])))
    | none => .ok (some (dictSet s "classes" (PyVal.list [PyVal.str hideClassName])))
  else .ok styling0

/-- `_process_content_block` (lines 81-104), taking the content block in the
state the superclass hook left it. -/
def processContentBlock (content_block : ContentBlock) (has_failed_evr : Bool)
    (render_object : Option (List ValidationResult)) :
    Except PyExc ContentBlock := do
  let (hr, hro) ← headerAdditions render_object
  let styling ← stylingUpdate has_failed_evr content_block.styling
  pure { content_block with
    header_row := hr, header_row_options := hro, styling := styling }

/-- Modelled from the spec: the superclass render loop (outside this module)
computes whether the overall result set contains any failing outcome and
passes it to `_process_content_block` as `has_failed_evr`. -/
def hasFailedEvr (rs : List ValidationResult) : Bool :=
  rs.any (fun r => !r.success)

/-- Modelled from the spec: the superclass render loop invokes the content
block fn once per outcome; the row for one outcome uses the registry
entries resolved for that outcome's expectation type. -/
def rowFor (env : Env) (regOf : String → Registry) (r : ValidationResult)
    (rc : List (String × PyVal)) (ep : Option PyVal) :
    Except PyExc (List (List PyVal) × List String) :=
  rowGeneratorFn env (regOf r.expectation_config.expectation_type) r rc ep

/-- Modelled from the spec: the end-to-end table body of one render call —
discover columns, normalize, then assemble one row per outcome in input
order, concatenating the emitted log entries. -/
def renderTable (env : Env) (regOf : String → Registry)
    (rs : List ValidationResult) (rc : List (String × PyVal))
    (ep : Option PyVal) :
    Except PyExc (List (List PyVal) × List String) := do
  let cols ← getCustomColumns rs
  let rs' ← renderNormalize cols rs
  let results ← mapMList (fun r => rowFor env regOf r rc ep) rs'
  pure ((results.map Prod.fst).flatten, (results.map Prod.snd).flatten)

/-- Spec-side merge policy of §4.4, written from the spec's words: append the
unexpected-statement fragments onto the description fragment list, then the
unexpected-table fragment when one exists. -/
def spec_mergeDescription (description unexpected_statement : List PyVal)
    (unexpected_table : PyVal) : List PyVal :=
  (description ++ unexpected_statement) ++
    (if pyTruthy unexpected_table then [unexpected_table] else [])

/-- Spec-side wrap policy of §4.4: more than one merged fragment is wrapped
as a single nested element, otherwise fragments are placed directly. -/
def spec_descriptionCells (merged : List PyVal) : List PyVal :=
  if merged.length > 1 then [PyVal.list merged] else merged

/-- Spec-side final row of §4.4: status, description cell(s), observed
value, custom-column cells, in that fixed order. -/
def spec_finalRow (status description observed customs : List PyVal) :
    List PyVal :=
  status ++ description ++ observed ++ customs

/-- A Python-reachable metadata state: a dict never holds duplicate keys,
so the reserved sub-mapping's key list is duplicate-free. -/
def MetaWF (r : ValidationResult) : Prop :=
  ∀ m sub, r.expectation_config.meta = some m →
    dictGet m customPropertyColumnsKey = some (.dict sub) →
    (sub.map Prod.fst).Nodup

/-! Concrete fixtures used by witnesses and counterexamples. -/

/-- Environment whose inherited defaults return one fragment each. -/
def envIcon : Env where
  missing_content_block_fn := fun _ _ => .ok [PyVal.str "missing"]
  diagnostic_status_icon_renderer := fun _ => .ok (PyVal.str "icon")

/-- Environment whose inherited prescriptive fallback returns an empty
fragment list. -/
def envEmptyPresc : Env where
  missing_content_block_fn := fun _ _ => .ok []
  diagnostic_status_icon_renderer := fun _ => .ok (PyVal.str "icon")

/-- Registry with no entry for any category. -/
def regNone : Registry := ⟨none, none, none, none, none⟩

/-- A sample exception raised by a renderer. -/
def excBoom : PyExc := ⟨"ValueError", "boom", "trace"⟩

/-- Registry whose status-icon renderer always raises. -/
def regStatusRaise : Registry :=
  ⟨none, some (fun _ => .error excBoom), none, none, none⟩

/-- Registry whose unexpected-statement renderer always raises. -/
def regStatementRaise : Registry :=
  ⟨none, none, some (fun _ => .error excBoom), none, none⟩

/-- An outcome with no custom columns, in post-normalization form. -/
def rPlain : ValidationResult :=
  ⟨⟨"t1", some [(customPropertyColumnsKey, PyVal.dict [])]⟩, true⟩

/-- An outcome with custom column `X` mapped to path `a.b`, and metadata
holding `a.b = 5`. -/
def rX : ValidationResult :=
  ⟨⟨"t1", some [(customPropertyColumnsKey, PyVal.dict [("X", PyVal.str "a.b")]),
                ("a", PyVal.dict [("b", PyVal.int 5)])]⟩, true⟩

/-- An outcome whose custom column path `a.b` walks through the non-dict
metadata value `a = 5`. -/
def rBadPath : ValidationResult :=
  ⟨⟨"t1", some [(customPropertyColumnsKey, PyVal.dict [("X", PyVal.str "a.b")]),
                ("a", PyVal.int 5)]⟩, true⟩

/-- An outcome with custom column `Y` mapped to path `a.b`, no metadata of
its own beyond the mapping. -/
def rY : ValidationResult :=
  ⟨⟨"t2", some [(customPropertyColumnsKey, PyVal.dict [("Y", PyVal.null)])]⟩, true⟩

/-- A failing outcome with no metadata. -/
def rFail : ValidationResult := ⟨⟨"t3", none⟩, false⟩

/-- A content block as the superclass hook might leave it, with one
pre-existing styling class. -/
def cbStyled : ContentBlock :=
  ⟨[], [], some [("classes", PyVal.list [PyVal.str "table"])]⟩

/-- Registry whose prescriptive renderer always raises. -/
def regPrescRaise : Registry :=
  ⟨some (fun _ _ => .error excBoom), none, none, none, none⟩

/-- Registry with one well-behaved renderer in every category. -/
def regFull : Registry :=
  ⟨some (fun _ _ => .ok [PyVal.str "desc"]),
   some (fun _ => .ok (PyVal.str "icon")),
   some (fun _ => .ok [PyVal.str "unexpected"]),
   some (fun _ => .ok (PyVal.str "table")),
   some (fun _ => .ok (PyVal.str "observed"))⟩

/-- An outcome with no metadata at all. -/
def rNoMeta : ValidationResult := ⟨⟨"t1", none⟩, true⟩

/-- An outcome whose custom column `X` has the dotted path `a.c`, missing
from its metadata `a` sub-dict. -/
def rAC : ValidationResult :=
  ⟨⟨"t1", some [(customPropertyColumnsKey, PyVal.dict [("X", PyVal.str "a.c")]),
                ("a", PyVal.dict [("b", PyVal.int 5)])]⟩, true⟩

/-! ## Reduction lemmas for the `Except` monad, dict lemmas, and proofs -/

theorem pybind_ok {α β : Type} (a : α) (f : α → Except PyExc β) :
    (Except.ok a >>= f : Except PyExc β) = f a := rfl

theorem pybind_err {α β : Type} (e : PyExc) (f : α → Except PyExc β) :
    ((Except.error e : Except PyExc α) >>= f) = .error e := rfl

theorem pypure {α : Type} (a : α) : (pure a : Except PyExc α) = .ok a := rfl

theorem dictGet_dictSet_self (m : List (String × PyVal)) (k : String) (v : PyVal) :
    dictGet (dictSet m k v) k = some v := by
  induction m with
  | nil => simp [dictSet, dictGet]
  | cons p m ih =>
    obtain ⟨k', v'⟩ := p
    by_cases h : k' = k <;> simp [dictSet, dictGet, h, ih]

theorem dictSet_eq_of_get (m : List (String × PyVal)) (k : String) (v : PyVal)
    (h : dictGet m k = some v) : dictSet m k v = m := by
  induction m with
  | nil => simp [dictGet] at h
  | cons p m ih =>
    obtain ⟨k', v'⟩ := p
    by_cases hk : k' = k
    · subst hk
      simp [dictGet] at h
      simp [dictSet, h]
    · simp [dictGet, hk] at h
      simp [dictSet, hk, ih h]

theorem containsKey_iff (m : List (String × PyVal)) (k : String) :
    containsKey m k = true ↔ k ∈ m.map Prod.fst := by
  induction m with
  | nil => simp [containsKey, dictGet]
  | cons p m ih =>
    obtain ⟨k', v'⟩ := p
    by_cases h : k' = k
    · subst h; simp [containsKey, dictGet]
    · simp [containsKey, dictGet, h, Ne.symm h] at ih ⊢
      exact ih

theorem containsKey_dictSet_self (m : List (String × PyVal)) (k : String)
    (v : PyVal) : containsKey (dictSet m k v) k = true := by
  simp [containsKey, dictGet_dictSet_self]

theorem dictGet_append_of_not_contains (m₁ m₂ : List (String × PyVal))
    (k : String) (h : containsKey m₁ k = false) :
    dictGet (m₁ ++ m₂) k = dictGet m₂ k := by
  induction m₁ with
  | nil => simp
  | cons p m ih =>
    obtain ⟨k', v'⟩ := p
    by_cases hk : k' = k
    · subst hk
      simp [containsKey, dictGet] at h
    · have h' : containsKey m k = false := by
        simpa [containsKey, dictGet, hk] using h
      show dictGet ((k', v') :: (m ++ m₂)) k = dictGet m₂ k
      rw [dictGet, if_neg hk]
      exact ih h'

theorem containsKey_append (m₁ m₂ : List (String × PyVal)) (k : String) :
    containsKey (m₁ ++ m₂) k = (containsKey m₁ k || containsKey m₂ k) := by
  rw [Bool.eq_iff_iff]
  simp only [containsKey_iff, List.map_append, List.mem_append, Bool.or_eq_true]

theorem addCols_contains (sub : List (String × PyVal)) (cs : List String)
    (k : String) :
    containsKey (addCols sub cs) k = (containsKey sub k || decide (k ∈ cs)) := by
  induction cs generalizing sub with
  | nil => simp [addCols]
  | cons c cs ih =>
    by_cases hc : containsKey sub c
    · rw [addCols, if_pos hc, ih]
      by_cases hkc : k = c
      · subst hkc
        simp [hc]
      · simp [hkc]
    · rw [addCols, if_neg hc, ih, containsKey_append]
      by_cases hkc : k = c
      · subst hkc
        simp [containsKey, dictGet]
      · have hone : containsKey [(c, PyVal.null)] k = false := by
          simp [containsKey, dictGet, Ne.symm hkc]
        simp [hone, hkc]

theorem addCols_eq_of_all (sub : List (String × PyVal)) (cs : List String)
    (h : ∀ c ∈ cs, containsKey sub c = true) : addCols sub cs = sub := by
  induction cs with
  | nil => rfl
  | cons c cs ih =>
    rw [addCols, if_pos (h c (by simp))]
    exact ih (fun c' hc' => h c' (by simp [hc']))

theorem addCols_keys_mem (sub : List (String × PyVal)) (cs : List String)
    (k : String) :
    k ∈ (addCols sub cs).map Prod.fst ↔ k ∈ sub.map Prod.fst ∨ k ∈ cs := by
  rw [← containsKey_iff, addCols_contains]
  simp [containsKey_iff]

theorem addCols_keys_nodup (sub : List (String × PyVal)) (cs : List String)
    (h : (sub.map Prod.fst).Nodup) : ((addCols sub cs).map Prod.fst).Nodup := by
  induction cs generalizing sub with
  | nil => exact h
  | cons c cs ih =>
    by_cases hc : containsKey sub c
    · rw [addCols, if_pos hc]; exact ih sub h
    · rw [addCols, if_neg hc]
      refine ih _ ?_
      have hnotin : c ∉ sub.map Prod.fst := by
        rw [← containsKey_iff]; simp [hc]
      simp [List.nodup_append, h, hnotin]

theorem ensureMeta_contains (r : ValidationResult) :
    containsKey (ensureMeta r) customPropertyColumnsKey = true := by
  cases hm : r.expectation_config.meta with
  | none => simp [ensureMeta, hm, containsKey, dictGet]
  | some m =>
    by_cases h : containsKey m customPropertyColumnsKey
    · simp [ensureMeta, hm, h]
    · have he : ensureMeta r = m ++ [(customPropertyColumnsKey, PyVal.dict [])] := by
        simp [ensureMeta, hm, h]
      rw [he, containsKey_append]
      simp [h, containsKey, dictGet]

theorem normalizedMeta_dict (cols : List String) (m sub : List (String × PyVal))
    (hc : cols.isEmpty = false)
    (hd : dictGet m customPropertyColumnsKey = some (PyVal.dict sub)) :
    normalizedMeta cols m =
      .ok (dictSet m customPropertyColumnsKey (PyVal.dict (addCols sub cols))) := by
  unfold normalizedMeta
  rw [if_neg (by simp [hc]), hd]

theorem normalizedMeta_ok (cols : List String) (m m' : List (String × PyVal))
    (h : normalizedMeta cols m = .ok m') :
    (cols.isEmpty = true ∧ m' = m) ∨
    (cols.isEmpty = false ∧ ∃ sub,
      dictGet m customPropertyColumnsKey = some (.dict sub) ∧
      m' = dictSet m customPropertyColumnsKey (PyVal.dict (addCols sub cols))) := by
  unfold normalizedMeta at h
  by_cases hc : cols.isEmpty
  · rw [if_pos hc] at h
    cases h
    exact Or.inl ⟨hc, rfl⟩
  · rw [if_neg hc] at h
    cases hd : dictGet m customPropertyColumnsKey with
    | none => rw [hd] at h; exact absurd h (by simp)
    | some v =>
      rw [hd] at h
      cases v with
      | null => simp at h
      | bool b => simp at h
      | int n => simp at h
      | str s => simp at h
      | list xs => simp at h
      | dict sub =>
        cases h
        exact Or.inr ⟨by simpa using hc, sub, rfl, rfl⟩

theorem normalizedMeta_idem (cols : List String) (m m' : List (String × PyVal))
    (h : normalizedMeta cols m = .ok m') : normalizedMeta cols m' = .ok m' := by
  rcases normalizedMeta_ok cols m m' h with ⟨hc, rfl⟩ | ⟨hc, sub, hd, rfl⟩
  · unfold normalizedMeta
    rw [if_pos hc]
  · have hall : ∀ c ∈ cols, containsKey (addCols sub cols) c = true := by
      intro c hcmem
      rw [addCols_contains]
      simp [hcmem]
    rw [normalizedMeta_dict cols _ (addCols sub cols) hc (dictGet_dictSet_self _ _ _),
      addCols_eq_of_all _ _ hall,
      dictSet_eq_of_get _ _ _ (dictGet_dictSet_self _ _ _)]

theorem normalizedMeta_contains (cols : List String) (m m' : List (String × PyVal))
    (hm : containsKey m customPropertyColumnsKey = true)
    (h : normalizedMeta cols m = .ok m') :
    containsKey m' customPropertyColumnsKey = true := by
  rcases normalizedMeta_ok cols m m' h with ⟨_, rfl⟩ | ⟨_, sub, hd, rfl⟩
  · exact hm
  · exact containsKey_dictSet_self _ _ _

theorem normalizeResult_meta (cols : List String) (r r' : ValidationResult)
    (h : normalizeResult cols r = .ok r') :
    ∃ m', normalizedMeta cols (ensureMeta r) = .ok m' ∧
      r' = { r with expectation_config :=
        { r.expectation_config with meta := some m' } } := by
  unfold normalizeResult at h
  cases hn : normalizedMeta cols (ensureMeta r) with
  | error e => rw [hn] at h; cases h
  | ok m' =>
    rw [hn] at h
    cases h
    exact ⟨m', rfl, rfl⟩

theorem normalizeResult_idem (cols : List String) (r r' : ValidationResult)
    (h : normalizeResult cols r = .ok r') : normalizeResult cols r' = .ok r' := by
  obtain ⟨m', hn, hr'⟩ := normalizeResult_meta cols r r' h
  subst hr'
  have hcont : containsKey m' customPropertyColumnsKey = true :=
    normalizedMeta_contains cols _ m' (ensureMeta_contains r) hn
  have hens : ensureMeta { r with expectation_config :=
      { r.expectation_config with meta := some m' } } = m' := by
    simp [ensureMeta, hcont]
  unfold normalizeResult
  rw [hens, normalizedMeta_idem cols (ensureMeta r) m' hn]
  rfl

theorem renderNormalize_idem (cols : List String)
    (rs rs' : List ValidationResult)
    (h : renderNormalize cols rs = .ok rs') :
    renderNormalize cols rs' = .ok rs' := by
  induction rs generalizing rs' with
  | nil =>
    unfold renderNormalize mapMList at h
    cases h
    rfl
  | cons r rs ih =>
    unfold renderNormalize mapMList at h
    cases hr : normalizeResult cols r with
    | error e => rw [hr, pybind_err] at h; cases h
    | ok r₁ =>
      rw [hr, pybind_ok] at h
      cases hrs : mapMList (normalizeResult cols) rs with
      | error e => rw [hrs, pybind_err] at h; cases h
      | ok l =>
        rw [hrs, pybind_ok, pypure] at h
        cases h
        unfold renderNormalize mapMList
        rw [normalizeResult_idem cols r r₁ hr, pybind_ok]
        have hl := ih l (by unfold renderNormalize; exact hrs)
        unfold renderNormalize at hl
        rw [hl, pybind_ok, pypure]

theorem charListLe_total : ∀ as bs : List Char,
    charListLe as bs = true ∨ charListLe bs as = true
  | [], _ => Or.inl rfl
  | _ :: _, [] => Or.inr rfl
  | a :: as, b :: bs => by
    by_cases hab : a = b
    · subst hab
      rcases charListLe_total as bs with h | h
      · exact Or.inl (by simp [charListLe, h])
      · exact Or.inr (by simp [charListLe, h])
    · rcases lt_or_gt_of_ne hab with h | h
      · exact Or.inl (by simp [charListLe, hab, h])
      · exact Or.inr (by simp [charListLe, Ne.symm hab, h])

theorem charListLe_trans : ∀ as bs cs : List Char,
    charListLe as bs = true → charListLe bs cs = true → charListLe as cs = true
  | [], _, _, _, _ => rfl
  | _ :: _, [], _, h, _ => by simp [charListLe] at h
  | _ :: _, _ :: _, [], _, h => by simp [charListLe] at h
  | a :: as, b :: bs, c :: cs, h₁, h₂ => by
    by_cases hab : a = b <;> by_cases hbc : b = c
    · subst hab; subst hbc
      simp only [charListLe, if_pos rfl] at h₁ h₂ ⊢
      exact charListLe_trans as bs cs h₁ h₂
    · subst hab
      simp only [charListLe, if_pos rfl, if_neg hbc] at h₂
      have hac : a < c := by simpa using h₂
      simp [charListLe, ne_of_lt hac, hac]
    · subst hbc
      simp only [charListLe, if_neg hab] at h₁
      have hac : a < b := by simpa using h₁
      simp [charListLe, ne_of_lt hac, hac]
    · simp only [charListLe, if_neg hab] at h₁
      simp only [charListLe, if_neg hbc] at h₂
      have hac : a < c := lt_trans (by simpa using h₁) (by simpa using h₂)
      simp [charListLe, ne_of_lt hac, hac]

theorem charListLe_antisymm : ∀ as bs : List Char,
    charListLe as bs = true → charListLe bs as = true → as = bs
  | [], [], _, _ => rfl
  | [], _ :: _, _, h => by simp [charListLe] at h
  | _ :: _, [], h, _ => by simp [charListLe] at h
  | a :: as, b :: bs, h₁, h₂ => by
    by_cases hab : a = b
    · subst hab
      simp only [charListLe, if_pos rfl] at h₁ h₂
      rw [charListLe_antisymm as bs h₁ h₂]
    · simp only [charListLe, if_neg hab] at h₁
      simp only [charListLe, if_neg (Ne.symm hab)] at h₂
      exact absurd (lt_trans (of_decide_eq_true h₁) (of_decide_eq_true h₂))
        (lt_irrefl a)

instance : IsTotal String (fun a b => strLe a b = true) :=
  ⟨fun a b => charListLe_total a.toList b.toList⟩

instance : IsTrans String (fun a b => strLe a b = true) :=
  ⟨fun a b c => charListLe_trans a.toList b.toList c.toList⟩

instance : IsAntisymm String (fun a b => strLe a b = true) :=
  ⟨fun a b h₁ h₂ =>
    String.toList_inj.mp (charListLe_antisymm a.toList b.toList h₁ h₂)⟩

theorem pySorted_sorted (l : List String) :
    List.Sorted (fun a b => strLe a b = true) (pySorted l) :=
  List.sorted_insertionSort _ l

theorem pySorted_perm (l : List String) : (pySorted l).Perm l :=
  List.perm_insertionSort _ l

theorem mem_addNew (acc ks : List String) (x : String) :
    x ∈ addNew acc ks ↔ x ∈ acc ∨ x ∈ ks := by
  induction ks generalizing acc with
  | nil => simp [addNew]
  | cons k ks ih =>
    rw [addNew]
    by_cases hk : k ∈ acc
    · rw [if_pos hk, ih]
      by_cases hx : x = k <;> simp [hx, hk]
    · rw [if_neg hk, ih]
      simp only [List.mem_append, List.mem_singleton, List.mem_cons]
      tauto

theorem addNew_nodup (acc ks : List String) (h : acc.Nodup) :
    (addNew acc ks).Nodup := by
  induction ks generalizing acc with
  | nil => exact h
  | cons k ks ih =>
    rw [addNew]
    by_cases hk : k ∈ acc
    · rw [if_pos hk]; exact ih _ h
    · rw [if_neg hk]
      exact ih _ (by simp [List.nodup_append, h, hk])

theorem collectColumns_ok_mem (rs : List ValidationResult)
    (acc out : List String) (h : collectColumns rs acc = .ok out) (x : String) :
    x ∈ out ↔ x ∈ acc ∨ ∃ r ∈ rs, ∃ ks, keysOfResult r = .ok ks ∧ x ∈ ks := by
  induction rs generalizing acc with
  | nil =>
    unfold collectColumns at h
    cases h
    simp
  | cons r rs ih =>
    unfold collectColumns at h
    cases hk : keysOfResult r with
    | error e => rw [hk, pybind_err] at h; cases h
    | ok ks =>
      rw [hk, pybind_ok] at h
      rw [ih _ h, mem_addNew]
      constructor
      · rintro ((hx | hx) | ⟨r', hr', ks', hks', hx⟩)
        · exact Or.inl hx
        · exact Or.inr ⟨r, List.mem_cons_self r rs, ks, hk, hx⟩
        · exact Or.inr ⟨r', List.mem_cons_of_mem _ hr', ks', hks', hx⟩
      · rintro (hx | ⟨r', hr', ks', hks', hx⟩)
        · exact Or.inl (Or.inl hx)
        · rcases List.mem_cons.mp hr' with rfl | hr'
          · rw [hk] at hks'
            cases hks'
            exact Or.inl (Or.inr hx)
          · exact Or.inr ⟨r', hr', ks', hks', hx⟩

theorem collectColumns_ok_nodup (rs : List ValidationResult)
    (acc out : List String) (ha : acc.Nodup)
    (h : collectColumns rs acc = .ok out) : out.Nodup := by
  induction rs generalizing acc with
  | nil => unfold collectColumns at h; cases h; exact ha
  | cons r rs ih =>
    unfold collectColumns at h
    cases hk : keysOfResult r with
    | error e => rw [hk, pybind_err] at h; cases h
    | ok ks =>
      rw [hk, pybind_ok] at h
      exact ih _ (addNew_nodup _ _ ha) h

theorem getCustomColumns_ok (rs : List ValidationResult) (out : List String)
    (h : getCustomColumns rs = .ok out) :
    ∃ raw, collectColumns rs [] = .ok raw ∧ out = pySorted raw := by
  unfold getCustomColumns at h
  cases hc : collectColumns rs [] with
  | error e => rw [hc] at h; cases h
  | ok raw =>
    rw [hc] at h
    cases h
    exact ⟨raw, rfl, rfl⟩

theorem getCustomColumns_mem (rs : List ValidationResult) (out : List String)
    (h : getCustomColumns rs = .ok out) (x : String) :
    x ∈ out ↔ ∃ r ∈ rs, ∃ ks, keysOfResult r = .ok ks ∧ x ∈ ks := by
  obtain ⟨raw, hc, rfl⟩ := getCustomColumns_ok rs out h
  rw [pySorted, List.mem_insertionSort, collectColumns_ok_mem rs [] raw hc x]
  simp

theorem getCustomColumns_nodup (rs : List ValidationResult) (out : List String)
    (h : getCustomColumns rs = .ok out) : out.Nodup := by
  obtain ⟨raw, hc, rfl⟩ := getCustomColumns_ok rs out h
  exact (pySorted_perm raw).nodup_iff.mpr
    (collectColumns_ok_nodup rs [] raw List.nodup_nil hc)

theorem getCustomColumns_sorted (rs : List ValidationResult) (out : List String)
    (h : getCustomColumns rs = .ok out) :
    List.Sorted (fun a b => strLe a b = true) out := by
  obtain ⟨raw, hc, rfl⟩ := getCustomColumns_ok rs out h
  exact pySorted_sorted raw

/-- C5: column discovery returns a deduplicated list of the custom-column
names found under the reserved metadata key, sorted lexicographically
ascending; for any two permutations of the same outcome set the result is
identical, and when no outcome defines custom columns the result is empty.
(The embedding is a pure function of the outcome list, so the outcomes are
not mutated by construction.) -/
theorem c5_column_discovery (rs₁ rs₂ : List ValidationResult) (c₁ c₂ : List String)
    (hp : rs₁.Perm rs₂)
    (h₁ : getCustomColumns rs₁ = .ok c₁) (h₂ : getCustomColumns rs₂ = .ok c₂) :
    c₁ = c₂ ∧ List.Sorted (fun a b => strLe a b = true) c₁ ∧ c₁.Nodup ∧
      ((∀ r ∈ rs₁, keysOfResult r = .ok []) → c₁ = []) := by
  have hmem : ∀ x, x ∈ c₁ ↔ x ∈ c₂ := by
    intro x
    rw [getCustomColumns_mem rs₁ c₁ h₁ x, getCustomColumns_mem rs₂ c₂ h₂ x]
    constructor
    · rintro ⟨r, hr, ks, hks, hx⟩
      exact ⟨r, hp.mem_iff.mp hr, ks, hks, hx⟩
    · rintro ⟨r, hr, ks, hks, hx⟩
      exact ⟨r, hp.mem_iff.mpr hr, ks, hks, hx⟩
  have hperm : c₁.Perm c₂ :=
    (List.perm_ext_iff_of_nodup (getCustomColumns_nodup rs₁ c₁ h₁)
      (getCustomColumns_nodup rs₂ c₂ h₂)).mpr hmem
  refine ⟨List.eq_of_perm_of_sorted hperm (getCustomColumns_sorted rs₁ c₁ h₁)
    (getCustomColumns_sorted rs₂ c₂ h₂), getCustomColumns_sorted rs₁ c₁ h₁,
    getCustomColumns_nodup rs₁ c₁ h₁, ?_⟩
  intro hall
  rw [List.eq_nil_iff_forall_not_mem]
  intro x hx
  rw [getCustomColumns_mem rs₁ c₁ h₁ x] at hx
  obtain ⟨r, hr, ks, hks, hxk⟩ := hx
  rw [hall r hr] at hks
  cases hks
  cases hxk

/-- Concrete instance of C5: two permutations of the same two outcomes
discover the same sorted column list. -/
theorem c5_witness :
    ∃ c₁ c₂, getCustomColumns [rX, rY] = .ok c₁ ∧
      getCustomColumns [rY, rX] = .ok c₂ ∧ c₁ = c₂ ∧ c₁ = ["X", "Y"] :=
  ⟨["X", "Y"], ["X", "Y"], rfl, rfl,
    (c5_column_discovery [rX, rY] [rY, rX] ["X", "Y"] ["X", "Y"]
      (List.Perm.swap rY rX []) rfl rfl).1, rfl⟩

/-- C9: the metadata normalization pass of `render` is idempotent — running
the loop a second time over already-normalized outcomes leaves every
outcome's configuration metadata exactly as the first run left it. -/
theorem c9_normalization_idempotent (cols : List String)
    (rs rs' : List ValidationResult)
    (h : renderNormalize cols rs = .ok rs') :
    renderNormalize cols rs' = .ok rs' :=
  renderNormalize_idem cols rs rs' h

/-- Concrete instance of C9: normalizing an already-normalized outcome is the
identity. -/
theorem c9_witness :
    renderNormalize ["X"] [⟨⟨"t3", some [(customPropertyColumnsKey,
        PyVal.dict [("X", PyVal.null)])]⟩, false⟩] =
      .ok [⟨⟨"t3", some [(customPropertyColumnsKey,
        PyVal.dict [("X", PyVal.null)])]⟩, false⟩] :=
  c9_normalization_idempotent ["X"] [rFail] _ rfl

theorem mapMList_ok_length {α β : Type} (f : α → Except PyExc β)
    (l : List α) (out : List β) (h : mapMList f l = .ok out) :
    out.length = l.length := by
  induction l generalizing out with
  | nil => unfold mapMList at h; cases h; rfl
  | cons a as ih =>
    unfold mapMList at h
    cases ha : f a with
    | error e => rw [ha, pybind_err] at h; cases h
    | ok b =>
      rw [ha, pybind_ok] at h
      cases has : mapMList f as with
      | error e => rw [has, pybind_err] at h; cases h
      | ok bs =>
        rw [has, pybind_ok, pypure] at h
        cases h
        simp [ih bs has]

theorem rowGeneratorFn_ok (env : Env) (reg : Registry) (result : ValidationResult)
    (rc : List (String × PyVal)) (ep : Option PyVal) (esc sc cpv : List PyVal)
    (hpre : getContentBlockFn env reg result.expectation_config
      (updatedRuntimeConfiguration rc ep) = .ok esc)
    (hst : statusStep env reg result = .ok sc)
    (hcpv : customPropertyValues result.expectation_config = .ok cpv) :
    rowGeneratorFn env reg result rc ep =
      .ok ([spec_finalRow sc
          (spec_descriptionCells (spec_mergeDescription esc
            (statementStep reg result).1 (tableStep reg result).1))
          (observedStep reg result).1 cpv],
        (statementStep reg result).2 ++ (tableStep reg result).2 ++
          (observedStep reg result).2) := by
  rcases hus : statementStep reg result with ⟨us, l1⟩
  rcases hut : tableStep reg result with ⟨ut, l2⟩
  rcases hov : observedStep reg result with ⟨ov, l3⟩
  simp only [rowGeneratorFn, hpre, hst, hus, hut, hov, hcpv, pybind_ok, pypure]
  have hmerge : (if us.isEmpty then esc else esc ++ us) = esc ++ us := by
    cases h : us.isEmpty
    · rfl
    · rw [List.isEmpty_iff] at h
      simp [h]
  rw [hmerge]
  unfold spec_finalRow spec_descriptionCells spec_mergeDescription
  by_cases ht : pyTruthy ut
  · simp only [ht, if_true]
    split <;> simp [List.append_assoc]
  · simp only [ht, Bool.false_eq_true, if_false, List.append_nil]
    split <;> simp [List.append_assoc]

/-! ## Error propagation and step behaviour of `row_generator_fn` -/

theorem rowGeneratorFn_presc_error (env : Env) (reg : Registry)
    (result : ValidationResult) (rc : List (String × PyVal)) (ep : Option PyVal)
    (e : PyExc)
    (hpre : getContentBlockFn env reg result.expectation_config
      (updatedRuntimeConfiguration rc ep) = .error e) :
    rowGeneratorFn env reg result rc ep = .error e := by
  simp only [rowGeneratorFn, hpre, pybind_err]

theorem rowGeneratorFn_status_error (env : Env) (reg : Registry)
    (result : ValidationResult) (rc : List (String × PyVal)) (ep : Option PyVal)
    (esc : List PyVal) (e : PyExc)
    (hpre : getContentBlockFn env reg result.expectation_config
      (updatedRuntimeConfiguration rc ep) = .ok esc)
    (hst : statusStep env reg result = .error e) :
    rowGeneratorFn env reg result rc ep = .error e := by
  simp only [rowGeneratorFn, hpre, hst, pybind_ok, pybind_err]

theorem rowGeneratorFn_cpv_error (env : Env) (reg : Registry)
    (result : ValidationResult) (rc : List (String × PyVal)) (ep : Option PyVal)
    (esc sc : List PyVal) (e : PyExc)
    (hpre : getContentBlockFn env reg result.expectation_config
      (updatedRuntimeConfiguration rc ep) = .ok esc)
    (hst : statusStep env reg result = .ok sc)
    (hcpv : customPropertyValues result.expectation_config = .error e) :
    rowGeneratorFn env reg result rc ep = .error e := by
  rcases hus : statementStep reg result with ⟨us, l1⟩
  rcases hut : tableStep reg result with ⟨ut, l2⟩
  rcases hov : observedStep reg result with ⟨ov, l3⟩
  simp only [rowGeneratorFn, hpre, hst, hus, hut, hov, hcpv, pybind_ok, pybind_err]

theorem rowGeneratorFn_ok_inv (env : Env) (reg : Registry)
    (result : ValidationResult) (rc : List (String × PyVal)) (ep : Option PyVal)
    (p : List (List PyVal) × List String)
    (h : rowGeneratorFn env reg result rc ep = .ok p) :
    ∃ esc sc cpv,
      getContentBlockFn env reg result.expectation_config
        (updatedRuntimeConfiguration rc ep) = .ok esc ∧
      statusStep env reg result = .ok sc ∧
      customPropertyValues result.expectation_config = .ok cpv := by
  cases hpre : getContentBlockFn env reg result.expectation_config
      (updatedRuntimeConfiguration rc ep) with
  | error e =>
    rw [rowGeneratorFn_presc_error env reg result rc ep e hpre] at h
    cases h
  | ok esc =>
    cases hst : statusStep env reg result with
    | error e =>
      rw [rowGeneratorFn_status_error env reg result rc ep esc e hpre hst] at h
      cases h
    | ok sc =>
      cases hcpv : customPropertyValues result.expectation_config with
      | error e =>
        rw [rowGeneratorFn_cpv_error env reg result rc ep esc sc e hpre hst hcpv] at h
        cases h
      | ok cpv => exact ⟨esc, sc, cpv, rfl, rfl, rfl⟩

theorem statusStep_ok_length (env : Env) (reg : Registry)
    (result : ValidationResult) (sc : List PyVal)
    (h : statusStep env reg result = .ok sc) : sc.length = 1 := by
  cases hreg : reg.status_icon with
  | none =>
    simp only [statusStep, hreg] at h
    cases hv : env.diagnostic_status_icon_renderer result with
    | error e => rw [hv, pybind_err] at h; cases h
    | ok v => rw [hv, pybind_ok, pypure] at h; cases h; rfl
  | some f =>
    simp only [statusStep, hreg] at h
    cases hv : f result with
    | error e => rw [hv, pybind_err] at h; cases h
    | ok v => rw [hv, pybind_ok, pypure] at h; cases h; rfl

theorem observedStep_length (reg : Registry) (result : ValidationResult) :
    (observedStep reg result).1.length = 1 := by
  cases hreg : reg.observed_value with
  | none => simp [observedStep, hreg]
  | some f =>
    cases hv : f result with
    | ok v => simp [observedStep, hreg, hv]
    | error e => simp [observedStep, hreg, hv]

theorem statementStep_raise (reg : Registry) (result : ValidationResult)
    (f : ValidationResult → Except PyExc (List PyVal)) (e : PyExc)
    (hf : reg.unexpected_statement = some f) (he : f result = .error e) :
    statementStep reg result = ([], [excMessage e]) := by
  simp only [statementStep, hf, he]

theorem tableStep_raise (reg : Registry) (result : ValidationResult)
    (f : ValidationResult → Except PyExc PyVal) (e : PyExc)
    (hf : reg.unexpected_table = some f) (he : f result = .error e) :
    tableStep reg result = (PyVal.null, [excMessage e]) := by
  simp only [tableStep, hf, he]

theorem observedStep_raise (reg : Registry) (result : ValidationResult)
    (f : ValidationResult → Except PyExc PyVal) (e : PyExc)
    (hf : reg.observed_value = some f) (he : f result = .error e) :
    observedStep reg result = ([PyVal.str "--"], [excMessage e]) := by
  simp only [observedStep, hf, he]

theorem statementStep_none (reg : Registry) (result : ValidationResult)
    (h : reg.unexpected_statement = none) : statementStep reg result = ([], []) := by
  simp only [statementStep, h]

theorem tableStep_none (reg : Registry) (result : ValidationResult)
    (h : reg.unexpected_table = none) : tableStep reg result = (PyVal.null, []) := by
  simp only [tableStep, h]

theorem observedStep_none (reg : Registry) (result : ValidationResult)
    (h : reg.observed_value = none) :
    observedStep reg result = ([PyVal.str "--"], []) := by
  simp only [observedStep, h]

theorem rowGeneratorFn_isOk (env : Env) (reg : Registry)
    (result : ValidationResult) (rc : List (String × PyVal)) (ep : Option PyVal)
    (esc sc cpv : List PyVal)
    (hpre : getContentBlockFn env reg result.expectation_config
      (updatedRuntimeConfiguration rc ep) = .ok esc)
    (hst : statusStep env reg result = .ok sc)
    (hcpv : customPropertyValues result.expectation_config = .ok cpv) :
    (rowGeneratorFn env reg result rc ep).isOk = true := by
  rw [rowGeneratorFn_ok env reg result rc ep esc sc cpv hpre hst hcpv]
  rfl

/-! ## Claim theorems: cell assembly and fault isolation -/

/-- C8: for every outcome (with the prescriptive renderer, status renderer and
custom-column resolution succeeding), the row generator appends the
unexpected-statement fragments onto the description cell's fragment list and
then any (truthy) unexpected-table fragment; if the merged description holds
more than one fragment the entire list is placed in the row as a single nested
element, otherwise its fragments are placed directly; and the final row is
[status cell] + [description cell(s)] + [observed-value cell] +
[custom-column cells], in that fixed order. -/
theorem c8_merge_policy_and_row_order (env : Env) (reg : Registry)
    (result : ValidationResult) (rc : List (String × PyVal)) (ep : Option PyVal)
    (esc sc cpv : List PyVal)
    (hpre : getContentBlockFn env reg result.expectation_config
      (updatedRuntimeConfiguration rc ep) = .ok esc)
    (hst : statusStep env reg result = .ok sc)
    (hcpv : customPropertyValues result.expectation_config = .ok cpv) :
    rowGeneratorFn env reg result rc ep =
      .ok ([spec_finalRow sc
          (spec_descriptionCells (spec_mergeDescription esc
            (statementStep reg result).1 (tableStep reg result).1))
          (observedStep reg result).1 cpv],
        (statementStep reg result).2 ++ (tableStep reg result).2 ++
          (observedStep reg result).2) :=
  rowGeneratorFn_ok env reg result rc ep esc sc cpv hpre hst hcpv

/-- Concrete instance of C8: rendering `rX` with a full registry nests the
three merged description fragments and appends the custom-column cell last. -/
theorem c8_witness :
    rowGeneratorFn envIcon regFull rX [] none =
      .ok ([spec_finalRow [PyVal.str "icon"]
          (spec_descriptionCells (spec_mergeDescription [PyVal.str "desc"]
            (statementStep regFull rX).1 (tableStep regFull rX).1))
          (observedStep regFull rX).1 [PyVal.list [PyVal.int 5]]],
        (statementStep regFull rX).2 ++ (tableStep regFull rX).2 ++
          (observedStep regFull rX).2) :=
  c8_merge_policy_and_row_order envIcon regFull rX [] none
    [PyVal.str "desc"] [PyVal.str "icon"] [PyVal.list [PyVal.int 5]] rfl rfl rfl

/-- C7: a registry miss substitutes the inherited fallback renderer only for
the prescriptive and status-icon categories (`_missing_content_block_fn` and
`_diagnostic_status_icon_renderer`), while for the three diagnostic categories
a miss yields the neutral result instead of a fallback renderer: empty
statement list, no table (`None`), and `["--"]` respectively. -/
theorem c7_fallback_asymmetry (env : Env) (reg : Registry)
    (r : ValidationResult) :
    (reg.prescriptive = none →
      getContentBlockFn env reg = env.missing_content_block_fn) ∧
    (reg.status_icon = none →
      statusStep env reg r =
        (env.diagnostic_status_icon_renderer r).map (fun v => [v])) ∧
    (reg.unexpected_statement = none → statementStep reg r = ([], [])) ∧
    (reg.unexpected_table = none → tableStep reg r = (PyVal.null, [])) ∧
    (reg.observed_value = none → observedStep reg r = ([PyVal.str "--"], [])) := by
  refine ⟨fun h => ?_, fun h => ?_, statementStep_none reg r,
    tableStep_none reg r, observedStep_none reg r⟩
  · unfold getContentBlockFn
    rw [h]
  · simp only [statusStep, h]
    cases hv : env.diagnostic_status_icon_renderer r <;>
      simp [hv, Except.map, pybind_ok, pybind_err, pypure]

/-- Concrete instance of C7 at an empty registry: the prescriptive fallback is
the inherited default and the three diagnostic contributions are neutral. -/
theorem c7_witness :
    getContentBlockFn envIcon regNone = envIcon.missing_content_block_fn ∧
    statusStep envIcon regNone rPlain =
      (envIcon.diagnostic_status_icon_renderer rPlain).map (fun v => [v]) ∧
    statementStep regNone rPlain = ([], []) ∧
    tableStep regNone rPlain = (PyVal.null, []) ∧
    observedStep regNone rPlain = ([PyVal.str "--"], []) :=
  ⟨(c7_fallback_asymmetry envIcon regNone rPlain).1 rfl,
   (c7_fallback_asymmetry envIcon regNone rPlain).2.1 rfl,
   (c7_fallback_asymmetry envIcon regNone rPlain).2.2.1 rfl,
   (c7_fallback_asymmetry envIcon regNone rPlain).2.2.2.1 rfl,
   (c7_fallback_asymmetry envIcon regNone rPlain).2.2.2.2 rfl⟩

/-- C4: an error raised by the prescriptive (description) renderer is not
caught by the row generator and propagates to the caller; the status-icon
invocation likewise propagates; and with prescriptive, status and custom
resolution succeeding, row generation succeeds whatever the three diagnostic
renderers do — they are the only exception-wrapped invocations. -/
theorem c4_prescriptive_error_propagates (env : Env) (reg : Registry)
    (result : ValidationResult) (rc : List (String × PyVal)) (ep : Option PyVal)
    (e : PyExc) (esc sc cpv : List PyVal) :
    (getContentBlockFn env reg result.expectation_config
        (updatedRuntimeConfiguration rc ep) = .error e →
      rowGeneratorFn env reg result rc ep = .error e) ∧
    (getContentBlockFn env reg result.expectation_config
        (updatedRuntimeConfiguration rc ep) = .ok esc →
      statusStep env reg result = .error e →
      rowGeneratorFn env reg result rc ep = .error e) ∧
    (getContentBlockFn env reg result.expectation_config
        (updatedRuntimeConfiguration rc ep) = .ok esc →
      statusStep env reg result = .ok sc →
      customPropertyValues result.expectation_config = .ok cpv →
      (rowGeneratorFn env reg result rc ep).isOk = true) :=
  ⟨rowGeneratorFn_presc_error env reg result rc ep e,
   rowGeneratorFn_status_error env reg result rc ep esc e,
   rowGeneratorFn_isOk env reg result rc ep esc sc cpv⟩

/-- Concrete instance of C4: a raising prescriptive renderer aborts the whole
row generation with its exception. -/
theorem c4_witness :
    rowGeneratorFn envIcon regPrescRaise rPlain [] none = .error excBoom :=
  (c4_prescriptive_error_propagates envIcon regPrescRaise rPlain [] none
    excBoom [] [] []).1 rfl

/-- C3 counterexample: the claim says the status-icon step catches any error
thrown by its renderer and row assembly never aborts; but a raising status
renderer aborts row generation with its exception (the status step sits
outside every `try` block). -/
theorem c3_counterexample :
    rowGeneratorFn envIcon regStatusRaise rPlain [] none = .error excBoom := rfl

/-- C3 amended: only the three diagnostic steps (unexpected statement,
unexpected table, observed value) are fault-isolated — each catches its
renderer's error, logs it, and degrades to its default — and row assembly then
completes whenever prescriptive, status and custom resolution succeed; the
status-icon step is not exception-wrapped, so its error propagates and aborts
row assembly. -/
theorem c3_fault_isolation_amended (env : Env) (reg : Registry)
    (result : ValidationResult) (rc : List (String × PyVal)) (ep : Option PyVal)
    (esc sc cpv : List PyVal) (e : PyExc) :
    ((∀ f, reg.unexpected_statement = some f → f result = .error e →
        statementStep reg result = ([], [excMessage e])) ∧
     (∀ f, reg.unexpected_table = some f → f result = .error e →
        tableStep reg result = (PyVal.null, [excMessage e])) ∧
     (∀ f, reg.observed_value = some f → f result = .error e →
        observedStep reg result = ([PyVal.str "--"], [excMessage e]))) ∧
    (getContentBlockFn env reg result.expectation_config
        (updatedRuntimeConfiguration rc ep) = .ok esc →
      statusStep env reg result = .ok sc →
      customPropertyValues result.expectation_config = .ok cpv →
      (rowGeneratorFn env reg result rc ep).isOk = true) ∧
    (getContentBlockFn env reg result.expectation_config
        (updatedRuntimeConfiguration rc ep) = .ok esc →
      statusStep env reg result = .error e →
      rowGeneratorFn env reg result rc ep = .error e) :=
  ⟨⟨fun f hf he => statementStep_raise reg result f e hf he,
    fun f hf he => tableStep_raise reg result f e hf he,
    fun f hf he => observedStep_raise reg result f e hf he⟩,
   rowGeneratorFn_isOk env reg result rc ep esc sc cpv,
   fun hpre hst => rowGeneratorFn_status_error env reg result rc ep esc e hpre hst⟩

/-- Concrete instance of the amended C3: a raising unexpected-statement
renderer is degraded to its default with one log entry, and row generation
still succeeds. -/
theorem c3_witness :
    statementStep regStatementRaise rPlain = ([], [excMessage excBoom]) ∧
    (rowGeneratorFn envIcon regStatementRaise rPlain [] none).isOk = true :=
  ⟨(c3_fault_isolation_amended envIcon regStatementRaise rPlain [] none
      [PyVal.str "missing"] [PyVal.str "icon"] [] excBoom).1.1 _ rfl rfl,
   (c3_fault_isolation_amended envIcon regStatementRaise rPlain [] none
      [PyVal.str "missing"] [PyVal.str "icon"] [] excBoom).2.1 rfl rfl rfl⟩

/-- C2: a resolved diagnostic renderer (unexpected statement, unexpected
table, observed value) that raises is caught; one error-level log entry built
from the exception's type name, message and traceback is emitted; the cell
contribution is degraded to its documented default (empty list, no table,
`["--"]`), so the produced table equals the one produced with that registry
entry absent; the row is still produced; and the row generated for any outcome
of a different expectation type is unaffected by swapping that type's
registry. -/
theorem c2_diagnostic_failure_recovery (env : Env) (reg : Registry)
    (result : ValidationResult) (rc : List (String × PyVal)) (ep : Option PyVal)
    (esc sc cpv : List PyVal) (e : PyExc)
    (hpre : getContentBlockFn env reg result.expectation_config
      (updatedRuntimeConfiguration rc ep) = .ok esc)
    (hst : statusStep env reg result = .ok sc)
    (hcpv : customPropertyValues result.expectation_config = .ok cpv) :
    excMessage e = dataDocsExceptionMessage ++ e.ty ++ ": \"" ++ e.msg ++
      "\".  Traceback: \"" ++ e.tb ++ "\"." ∧
    (∀ f, reg.unexpected_statement = some f → f result = .error e →
      statementStep reg result = ([], [excMessage e]) ∧
      ∃ tbl logs logs₀,
        rowGeneratorFn env reg result rc ep = .ok (tbl, logs) ∧
        excMessage e ∈ logs ∧
        rowGeneratorFn env { reg with unexpected_statement := none }
          result rc ep = .ok (tbl, logs₀)) ∧
    (∀ f, reg.unexpected_table = some f → f result = .error e →
      tableStep reg result = (PyVal.null, [excMessage e]) ∧
      ∃ tbl logs logs₀,
        rowGeneratorFn env reg result rc ep = .ok (tbl, logs) ∧
        excMessage e ∈ logs ∧
        rowGeneratorFn env { reg with unexpected_table := none }
          result rc ep = .ok (tbl, logs₀)) ∧
    (∀ f, reg.observed_value = some f → f result = .error e →
      observedStep reg result = ([PyVal.str "--"], [excMessage e]) ∧
      ∃ tbl logs logs₀,
        rowGeneratorFn env reg result rc ep = .ok (tbl, logs) ∧
        excMessage e ∈ logs ∧
        rowGeneratorFn env { reg with observed_value := none }
          result rc ep = .ok (tbl, logs₀)) ∧
    (∀ (regOf₁ regOf₂ : String → Registry) (t : String) (r' : ValidationResult),
      (∀ u, u ≠ t → regOf₁ u = regOf₂ u) →
      r'.expectation_config.expectation_type ≠ t →
      rowFor env regOf₁ r' rc ep = rowFor env regOf₂ r' rc ep) := by
  refine ⟨rfl, ?_, ?_, ?_, ?_⟩
  · intro f hf he
    have hstep := statementStep_raise reg result f e hf he
    refine ⟨hstep, ?_⟩
    have h1 := rowGeneratorFn_ok env reg result rc ep esc sc cpv hpre hst hcpv
    have h2 := rowGeneratorFn_ok env { reg with unexpected_statement := none }
      result rc ep esc sc cpv hpre hst hcpv
    rw [hstep] at h1
    rw [statementStep_none { reg with unexpected_statement := none } result rfl]
      at h2
    exact ⟨_, _, _, h1, by simp, h2⟩
  · intro f hf he
    have hstep := tableStep_raise reg result f e hf he
    refine ⟨hstep, ?_⟩
    have h1 := rowGeneratorFn_ok env reg result rc ep esc sc cpv hpre hst hcpv
    have h2 := rowGeneratorFn_ok env { reg with unexpected_table := none }
      result rc ep esc sc cpv hpre hst hcpv
    rw [hstep] at h1
    rw [tableStep_none { reg with unexpected_table := none } result rfl] at h2
    exact ⟨_, _, _, h1, by simp, h2⟩
  · intro f hf he
    have hstep := observedStep_raise reg result f e hf he
    refine ⟨hstep, ?_⟩
    have h1 := rowGeneratorFn_ok env reg result rc ep esc sc cpv hpre hst hcpv
    have h2 := rowGeneratorFn_ok env { reg with observed_value := none }
      result rc ep esc sc cpv hpre hst hcpv
    rw [hstep] at h1
    rw [observedStep_none { reg with observed_value := none } result rfl] at h2
    exact ⟨_, _, _, h1, by simp, h2⟩
  · intro regOf₁ regOf₂ t r' hagree hne
    unfold rowFor
    rw [hagree r'.expectation_config.expectation_type hne]

/-- Concrete instance of C2: a raising unexpected-statement renderer yields
the same table as an absent one, plus one log entry carrying the exception. -/
theorem c2_witness :
    statementStep regStatementRaise rPlain = ([], [excMessage excBoom]) ∧
    ∃ tbl logs logs₀,
      rowGeneratorFn envIcon regStatementRaise rPlain [] none = .ok (tbl, logs) ∧
      excMessage excBoom ∈ logs ∧
      rowGeneratorFn envIcon { regStatementRaise with unexpected_statement := none }
        rPlain [] none = .ok (tbl, logs₀) :=
  (c2_diagnostic_failure_recovery envIcon regStatementRaise rPlain [] none
    [PyVal.str "missing"] [PyVal.str "icon"] [] excBoom rfl rfl rfl).2.1 _ rfl rfl

/-! ## Custom-column cell count after normalization -/

theorem ensureMeta_get (r : ValidationResult) (v : PyVal)
    (h : dictGet (ensureMeta r) customPropertyColumnsKey = some v) :
    v = PyVal.dict [] ∨
    ∃ m0, r.expectation_config.meta = some m0 ∧
      dictGet m0 customPropertyColumnsKey = some v := by
  cases hm : r.expectation_config.meta with
  | none =>
    left
    have he : ensureMeta r = [(customPropertyColumnsKey, PyVal.dict [])] := by
      simp [ensureMeta, hm]
    rw [he] at h
    simp [dictGet] at h
    exact h.symm
  | some m0 =>
    by_cases hc : containsKey m0 customPropertyColumnsKey
    · right
      have he : ensureMeta r = m0 := by simp [ensureMeta, hm, hc]
      rw [he] at h
      exact ⟨m0, rfl, h⟩
    · left
      have he : ensureMeta r =
          m0 ++ [(customPropertyColumnsKey, PyVal.dict [])] := by
        simp [ensureMeta, hm, hc]
      rw [he, dictGet_append_of_not_contains _ _ _ (by simp [hc])] at h
      simp [dictGet] at h
      exact h.symm

theorem keysOfResult_of_meta (r : ValidationResult)
    (m0 sub : List (String × PyVal)) (hm : r.expectation_config.meta = some m0)
    (hd : dictGet m0 customPropertyColumnsKey = some (PyVal.dict sub)) :
    keysOfResult r = .ok (sub.map Prod.fst) := by
  simp only [keysOfResult, hm, hd]

theorem sub_keys_subset (rs : List ValidationResult) (cols : List String)
    (r : ValidationResult) (hcols : getCustomColumns rs = .ok cols)
    (hmem : r ∈ rs) (m0 sub : List (String × PyVal))
    (hm : r.expectation_config.meta = some m0)
    (hd : dictGet m0 customPropertyColumnsKey = some (PyVal.dict sub)) :
    ∀ x ∈ sub.map Prod.fst, x ∈ cols := by
  intro x hx
  rw [getCustomColumns_mem rs cols hcols x]
  exact ⟨r, hmem, sub.map Prod.fst, keysOfResult_of_meta r m0 sub hm hd, hx⟩

theorem customPropertyValues_dict_length (ec : ExpectationConfig)
    (m sub : List (String × PyVal)) (cpv : List PyVal)
    (hm : ec.meta = some m)
    (hd : dictGet m customPropertyColumnsKey = some (PyVal.dict sub))
    (h : customPropertyValues ec = .ok cpv) :
    cpv.length = (sub.map Prod.fst).length := by
  simp only [customPropertyValues, hm, hd] at h
  rw [mapMList_ok_length _ _ _ h]
  exact (pySorted_perm _).length_eq

theorem customPropertyValues_length (rs : List ValidationResult)
    (cols : List String) (r r' : ValidationResult) (cpv : List PyVal)
    (hcols : getCustomColumns rs = .ok cols) (hmem : r ∈ rs) (hwf : MetaWF r)
    (hnorm : normalizeResult cols r = .ok r')
    (hcpv : customPropertyValues r'.expectation_config = .ok cpv) :
    cpv.length = cols.length := by
  obtain ⟨m', hn, hr'⟩ := normalizeResult_meta cols r r' hnorm
  subst hr'
  rcases normalizedMeta_ok cols (ensureMeta r) m' hn with ⟨hc, rfl⟩ | ⟨hc, sub, hd, rfl⟩
  · have hcols0 : cols = [] := List.isEmpty_iff.mp hc
    subst hcols0
    have hcont := ensureMeta_contains r
    cases hv : dictGet (ensureMeta r) customPropertyColumnsKey with
    | none => rw [containsKey, hv] at hcont; cases hcont
    | some v =>
      rcases ensureMeta_get r v hv with rfl | ⟨m0, hm0, hd0⟩
      · simp only [customPropertyValues, hv] at hcpv
        -- sub-dict is empty, so the sorted key list is empty
        cases hcpv
        rfl
      · cases v with
        | dict sub =>
          have hsub : sub.map Prod.fst = [] := by
            rw [List.eq_nil_iff_forall_not_mem]
            intro x hx
            exact absurd (sub_keys_subset rs [] r hcols hmem m0 sub hm0 hd0 x hx)
              (List.not_mem_nil x)
          have hdl := customPropertyValues_dict_length _ (ensureMeta r) sub cpv rfl hv hcpv
          rw [hdl, hsub]
        | null =>
          simp only [customPropertyValues, hv] at hcpv
          exact Except.noConfusion hcpv
        | bool b =>
          simp only [customPropertyValues, hv] at hcpv
          exact Except.noConfusion hcpv
        | int n =>
          simp only [customPropertyValues, hv] at hcpv
          exact Except.noConfusion hcpv
        | str s =>
          simp only [customPropertyValues, hv] at hcpv
          exact Except.noConfusion hcpv
        | list xs =>
          simp only [customPropertyValues, hv] at hcpv
          exact Except.noConfusion hcpv
  · have hv' : dictGet (dictSet (ensureMeta r) customPropertyColumnsKey
        (PyVal.dict (addCols sub cols))) customPropertyColumnsKey =
        some (PyVal.dict (addCols sub cols)) := dictGet_dictSet_self _ _ _
    have hlen := customPropertyValues_dict_length _ _ (addCols sub cols) cpv rfl hv' hcpv
    have hsubnodup : (sub.map Prod.fst).Nodup := by
      rcases ensureMeta_get r (PyVal.dict sub) hd with heq | ⟨m0, hm0, hd0⟩
      · cases heq
        exact List.nodup_nil
      · exact hwf m0 sub hm0 hd0
    have hsubset : ∀ x ∈ sub.map Prod.fst, x ∈ cols := by
      rcases ensureMeta_get r (PyVal.dict sub) hd with heq | ⟨m0, hm0, hd0⟩
      · cases heq
        intro x hx
        cases hx
      · exact sub_keys_subset rs cols r hcols hmem m0 sub hm0 hd0
    have hperm : ((addCols sub cols).map Prod.fst).Perm cols := by
      refine (List.perm_ext_iff_of_nodup (addCols_keys_nodup sub cols hsubnodup)
        (getCustomColumns_nodup rs cols hcols)).mpr ?_
      intro x
      rw [addCols_keys_mem]
      constructor
      · rintro (hx | hx)
        · exact hsubset x hx
        · exact hx
      · exact fun hx => Or.inr hx
    rw [hlen, hperm.length_eq]

/-! ## Claim theorems: row width (C1) -/

/-- C1 counterexample: the claim says every row has length exactly
`3 + |discoveredColumns|`; but with no discovered columns and a prescriptive
renderer (here the inherited fallback) returning an empty fragment list, the
merged description contributes zero cells and the produced row has length 2,
not 3. -/
theorem c1_counterexample :
    getCustomColumns [rNoMeta] = .ok [] ∧
    renderNormalize [] [rNoMeta] = .ok [rPlain] ∧
    rowGeneratorFn envEmptyPresc regNone rPlain [] none =
      .ok ([[PyVal.str "icon", PyVal.str "--"]], []) ∧
    ([PyVal.str "icon", PyVal.str "--"] : List PyVal).length = 2 :=
  ⟨rfl, rfl, rfl, rfl⟩

/-- C1 amended: after the normalization pass, every row produced by the row
generator has length exactly `3 + |discoveredColumns|`, provided the resolved
prescriptive renderer returns a nonempty fragment list (an empty description
fragment list instead yields a row of length `2 + |discoveredColumns|`). -/
theorem c1_row_width (env : Env) (reg : Registry) (rs : List ValidationResult)
    (cols : List String) (r r' : ValidationResult) (rc : List (String × PyVal))
    (ep : Option PyVal) (tbl : List (List PyVal)) (logs : List String)
    (hcols : getCustomColumns rs = .ok cols) (hmem : r ∈ rs) (hwf : MetaWF r)
    (hnorm : normalizeResult cols r = .ok r')
    (hne : ∀ c rcx l, getContentBlockFn env reg c rcx = .ok l → l ≠ [])
    (hrow : rowGeneratorFn env reg r' rc ep = .ok (tbl, logs)) :
    ∀ row ∈ tbl, row.length = 3 + cols.length := by
  obtain ⟨esc, sc, cpv, hpre, hst, hcpv⟩ :=
    rowGeneratorFn_ok_inv env reg r' rc ep (tbl, logs) hrow
  rw [rowGeneratorFn_ok env reg r' rc ep esc sc cpv hpre hst hcpv] at hrow
  cases hrow
  intro row hr
  rw [List.mem_singleton] at hr
  subst hr
  have h1 : sc.length = 1 := statusStep_ok_length env reg r' sc hst
  have h2 : (observedStep reg r').1.length = 1 := observedStep_length reg r'
  have h3 : cpv.length = cols.length :=
    customPropertyValues_length rs cols r r' cpv hcols hmem hwf hnorm hcpv
  have hesc : esc ≠ [] := hne _ _ _ hpre
  have hesclen : esc.length ≠ 0 := by
    simpa [List.length_eq_zero] using hesc
  have hdesc : (spec_descriptionCells (spec_mergeDescription esc
      (statementStep reg r').1 (tableStep reg r').1)).length = 1 := by
    unfold spec_descriptionCells
    split
    · rfl
    · next hgt =>
      have hne0 : (spec_mergeDescription esc (statementStep reg r').1
          (tableStep reg r').1).length ≠ 0 := by
        unfold spec_mergeDescription
        simp only [List.length_append]
        omega
      omega
  unfold spec_finalRow
  simp only [List.length_append]
  omega

/-- Concrete instance of the amended C1: one discovered column, a normalized
outcome, a one-fragment description — the row has width `3 + 1`. -/
theorem c1_witness :
    ([PyVal.str "icon", PyVal.str "missing", PyVal.str "--",
      PyVal.list [PyVal.int 5]] : List PyVal).length =
      3 + (["X"] : List String).length :=
  c1_row_width envIcon regNone [rX] ["X"] rX rX [] none
    [[PyVal.str "icon", PyVal.str "missing", PyVal.str "--",
      PyVal.list [PyVal.int 5]]] []
    rfl (List.mem_singleton.mpr rfl)
    (by
      intro m sub h1 h2
      cases h1
      cases h2
      simp)
    rfl
    (by
      intro c rcx l h
      cases h
      simp)
    rfl
    [PyVal.str "icon", PyVal.str "missing", PyVal.str "--", PyVal.list [PyVal.int 5]]
    (List.mem_singleton.mpr rfl)

/-! ## Claim theorems: custom column resolution (C6) -/

/-- C6 counterexample: the claim says every failure of the dotted path to
resolve is recovered locally as `["N/A"]`; but a path segment that lands on a
non-dict metadata value (`a = 5` with path `a.b`) raises `TypeError`, which
the `except KeyError` clause does not catch, so the whole row generation
aborts instead of emitting `["N/A"]`. -/
theorem c6_counterexample :
    rowGeneratorFn envIcon regNone rBadPath [] none =
      .error (PyExc.mk "TypeError" "object is not subscriptable" "") := rfl

/-- C6 amended: a stored `null` path yields `["N/A"]`; a string path is split
on `"."` and walked from the outcome's full configuration metadata; a missing
key (`KeyError`) is recovered locally as `["N/A"]`; any other walk failure
(`TypeError` from a non-dict segment) propagates uncaught; and on the three
concrete examples, path `a.b` over `a.b = 5` yields `5`, path `a.c` yields
`"N/A"`, and a `null` mapping yields `"N/A"`. -/
theorem c6_custom_column_resolution (m : List (String × PyVal)) (s : String)
    (res : Except PyExc PyVal)
    (h : resolveSegments (PyVal.dict m) (splitDot s) = res) :
    resolveOneColumn m PyVal.null = .ok (PyVal.list [PyVal.str "N/A"]) ∧
    (∀ v, res = .ok v →
      resolveOneColumn m (PyVal.str s) = .ok (PyVal.list [v])) ∧
    (∀ e, res = .error e → e.ty = "KeyError" →
      resolveOneColumn m (PyVal.str s) = .ok (PyVal.list [PyVal.str "N/A"])) ∧
    (∀ e, res = .error e → e.ty ≠ "KeyError" →
      resolveOneColumn m (PyVal.str s) = .error e) ∧
    customPropertyValues rX.expectation_config =
      .ok [PyVal.list [PyVal.int 5]] ∧
    customPropertyValues rAC.expectation_config =
      .ok [PyVal.list [PyVal.str "N/A"]] ∧
    customPropertyValues rY.expectation_config =
      .ok [PyVal.list [PyVal.str "N/A"]] := by
  subst h
  refine ⟨rfl, ?_, ?_, ?_, rfl, rfl, rfl⟩
  · intro v hv
    simp only [resolveOneColumn, hv]
  · intro e he hk
    simp only [resolveOneColumn, he, hk]
    rfl
  · intro e he hk
    simp only [resolveOneColumn, he]
    rw [if_neg hk]

/-- Concrete instance of the amended C6: resolving path `a.b` over metadata
`a.b = 5` yields the cell `[5]`. -/
theorem c6_witness :
    resolveOneColumn [("a", PyVal.dict [("b", PyVal.int 5)])] (PyVal.str "a.b") =
      .ok (PyVal.list [PyVal.int 5]) :=
  (c6_custom_column_resolution [("a", PyVal.dict [("b", PyVal.int 5)])] "a.b"
    (.ok (PyVal.int 5)) rfl).2.1 (PyVal.int 5) rfl

/-! ## Claim theorems: all-success styling (C10) -/

/-- C10: when no outcome fails, `_process_content_block` appends the
`hide-succeeded-validations-column-section-target-child` class flag to the
table's styling classes (creating the entry when absent); when at least one
outcome fails, the styling is left exactly as the superclass hook left it. -/
theorem c10_all_success_styling (cb : ContentBlock) (rs : List ValidationResult)
    (ro : Option (List ValidationResult))
    (hp : List String × List (String × PyVal))
    (hh : headerAdditions ro = .ok hp) :
    ((∀ r ∈ rs, r.success = true) →
      (∀ xs, dictGet (cb.styling.getD []) "classes" = some (PyVal.list xs) →
        processContentBlock cb (hasFailedEvr rs) ro =
          .ok { cb with
            header_row := hp.1
            header_row_options := hp.2
            styling := some (dictSet (cb.styling.getD []) "classes"
              (PyVal.list (xs ++ [PyVal.str hideClassName]))) }) ∧
      (dictGet (cb.styling.getD []) "classes" = none →
        processContentBlock cb (hasFailedEvr rs) ro =
          .ok { cb with
            header_row := hp.1
            header_row_options := hp.2
            styling := some (dictSet (cb.styling.getD []) "classes"
              (PyVal.list [PyVal.str hideClassName])) })) ∧
    ((∃ r ∈ rs, r.success = false) →
      processContentBlock cb (hasFailedEvr rs) ro =
        .ok { cb with
          header_row := hp.1
          header_row_options := hp.2
          styling := cb.styling }) := by
  obtain ⟨hr2, hro2⟩ := hp
  have hfe : (∀ r ∈ rs, r.success = true) → hasFailedEvr rs = false := by
    intro hs
    unfold hasFailedEvr
    rw [List.any_eq_false]
    intro r hr
    simp [hs r hr]
  have hft : (∃ r ∈ rs, r.success = false) → hasFailedEvr rs = true := by
    rintro ⟨r, hr, hfail⟩
    unfold hasFailedEvr
    rw [List.any_eq_true]
    exact ⟨r, hr, by simp [hfail]⟩
  refine ⟨fun hsucc => ⟨fun xs hxs => ?_, fun hnone => ?_⟩, fun hex => ?_⟩
  · rw [hfe hsucc]
    have hsty : stylingUpdate false cb.styling =
        .ok (some (dictSet (cb.styling.getD []) "classes"
          (PyVal.list (xs ++ [PyVal.str hideClassName])))) := by
      simp only [stylingUpdate, if_pos rfl, hxs]
      by_cases he : xs.isEmpty
      · rw [List.isEmpty_iff] at he
        subst he
        simp [pyTruthy]
      · simp [pyTruthy, he]
    simp only [processContentBlock, hh, hsty, pybind_ok, pypure]
  · rw [hfe hsucc]
    have hsty : stylingUpdate false cb.styling =
        .ok (some (dictSet (cb.styling.getD []) "classes"
          (PyVal.list [PyVal.str hideClassName]))) := by
      simp [stylingUpdate, hnone]
    simp only [processContentBlock, hh, hsty, pybind_ok, pypure]
  · rw [hft hex]
    have hsty : stylingUpdate true cb.styling = .ok cb.styling := by
      simp [stylingUpdate]
    simp only [processContentBlock, hh, hsty, pybind_ok, pypure]

/-- Concrete instance of C10: an all-passing result set appends the hide flag
to the pre-existing `classes`; a set with a failing outcome leaves the
styling unchanged. -/
theorem c10_witness :
    processContentBlock cbStyled (hasFailedEvr [rX]) none =
      .ok { cbStyled with
        header_row := ["Status", "Expectation", "Observed Value"]
        header_row_options := [("Status", PyVal.dict [("sortable", PyVal.bool true)])]
        styling := some [("classes",
          PyVal.list [PyVal.str "table", PyVal.str hideClassName])] } ∧
    processContentBlock cbStyled (hasFailedEvr [rFail]) none =
      .ok { cbStyled with
        header_row := ["Status", "Expectation", "Observed Value"]
        header_row_options := [("Status", PyVal.dict [("sortable", PyVal.bool true)])]
        styling := cbStyled.styling } :=
  ⟨((c10_all_success_styling cbStyled [rX] none _ rfl).1
      (by
        intro r hr
        rcases List.mem_singleton.mp hr with rfl
        rfl)).1 [PyVal.str "table"] rfl,
   (c10_all_success_styling cbStyled [rFail] none _ rfl).2
     ⟨rFail, List.mem_singleton.mpr rfl, rfl⟩⟩
